import Mathlib

/-!
Shallow embedding of `src/mcx/inference/kernels.py` (MCX sampling kernels).

The file is a "flat zone": positions, momenta and gradients are flat numeric
vectors, modelled here as `List F` where `F` is an IEEE-style scalar (a finite
value, modelled as a rational, or one of the special values `+inf`, `-inf`,
`NaN`).  The kernel's NaN/infinity handling (`np.where(np.isnan ...)`,
`np.clip`, comparisons against `-inf`/`NaN`) is what the claims are about, so
those semantics are modelled faithfully; the finite branch of `np.exp` (a
transcendental, not representable exactly on rationals) is abstracted as a
function `qexp : ℚ → ℚ` carried in the environment, with the IEEE special
cases (`exp(-inf) = 0`, `exp(+inf) = +inf`, `exp(NaN) = NaN`) fixed
concretely.  The external collaborators (integrator, momentum generator,
kinetic energy, log-density, proposal generator) and the splittable PRNG
substrate (`jax.random.split`, `jax.random.bernoulli`, `jax.random.uniform`,
`np.log`) are parameters bundled in an environment record, exactly as the
source treats them as black boxes.
-/

namespace MCXKernels

/-- IEEE-style scalar: a finite value (modelled as a rational) or one of the
special values `+inf`, `-inf`, `NaN`. -/
inductive F where
  | fin : ℚ → F
  | pinf : F
  | ninf : F
  | nan : F
deriving DecidableEq, Repr

/-- `np.isnan` on a scalar. -/
def F.isNaN : F → Bool
  | F.nan => true
  | _ => false

/-- IEEE negation (the source's `-1.0 * momentum`, elementwise). -/
def fneg : F → F
  | F.fin q => F.fin (-q)
  | F.pinf => F.ninf
  | F.ninf => F.pinf
  | F.nan => F.nan

/-- IEEE addition: `NaN` absorbs, `(+inf) + (-inf) = NaN`, infinities
dominate finite values. -/
def fadd : F → F → F
  | F.nan, _ => F.nan
  | _, F.nan => F.nan
  | F.pinf, F.ninf => F.nan
  | F.ninf, F.pinf => F.nan
  | F.pinf, _ => F.pinf
  | _, F.pinf => F.pinf
  | F.ninf, _ => F.ninf
  | _, F.ninf => F.ninf
  | F.fin a, F.fin b => F.fin (a + b)

/-- IEEE subtraction, `a - b = a + (-b)`. -/
def fsub (a b : F) : F := fadd a (fneg b)

/-- IEEE absolute value (`np.abs`). -/
def fabs : F → F
  | F.fin q => F.fin |q|
  | F.pinf => F.pinf
  | F.ninf => F.pinf
  | F.nan => F.nan

/-- IEEE strict less-than: any comparison with `NaN` is false; `-inf` is
below everything else; `+inf` is above everything else. -/
def flt : F → F → Bool
  | F.nan, _ => false
  | _, F.nan => false
  | F.ninf, F.ninf => false
  | F.ninf, _ => true
  | _, F.ninf => false
  | F.pinf, _ => false
  | _, F.pinf => true
  | F.fin a, F.fin b => decide (a < b)

/-- `np.exp`, with the finite branch abstracted by `qexp` and the IEEE
special values fixed: `exp(-inf) = 0`, `exp(+inf) = +inf`, `exp(NaN) = NaN`. -/
def fexp (qexp : ℚ → ℚ) : F → F
  | F.nan => F.nan
  | F.pinf => F.pinf
  | F.ninf => F.fin 0
  | F.fin q => F.fin (qexp q)

/-- `np.clip(x, a_max=1)`: the elementwise minimum with `1` (`NaN`
propagates, as in numpy's `clip`). -/
def clipMax1 : F → F
  | F.nan => F.nan
  | F.pinf => F.fin 1
  | F.ninf => F.ninf
  | F.fin q => F.fin (min q 1)

/-- Written from the spec's words "`p_accept = min(1, exp(delta_energy))`":
the IEEE minimum of `1` and the argument, to be compared with the source's
`np.clip(np.exp(delta_energy), a_max=1)`. -/
def spec_min_one : F → F
  | F.nan => F.nan
  | F.pinf => F.fin 1
  | F.ninf => F.ninf
  | F.fin q => F.fin (min 1 q)

/-- Elementwise addition of flat vectors (the source's `position + move`). -/
def vadd (xs ys : List F) : List F := List.zipWith fadd xs ys

/-! ## HMC data model (source: `HMCState`, `HMCInfo`) -/

/-- `HMCState` namedtuple: position, log-probability, its gradient, and the
cached energy. -/
structure HMCState where
  position : List F
  log_prob : F
  log_prob_grad : List F
  energy : F
deriving DecidableEq, Repr

/-- `HMCInfo` namedtuple: diagnostic output of one HMC step. -/
structure HMCInfo where
  proposed_state : HMCState
  acceptance_probability : F
  is_accepted : Bool
  is_divergent : Bool
deriving DecidableEq, Repr

/-- The collaborators the HMC kernel factory closes over, together with the
PRNG substrate (`jax.random.split` into three keys, `jax.random.bernoulli`)
and the finite branch of `np.exp`.  `K` is the type of PRNG keys. -/
structure HMCEnv (K : Type) where
  split3 : K → K × K × K
  bern : K → F → Bool
  qexp : ℚ → ℚ
  integrator : K → List F → List F → List F → F → List F × List F × F × List F
  momentum_generator : K → List F
  kinetic_energy : List F → F
  divergence_threshold : F

/-- The default value of the factory's `divergence_threshold` argument
(`divergence_threshold: float = 1000.0`). -/
def hmc_default_divergence_threshold : F := F.fin 1000

/-- `key_momentum, key_integrator, key_accept = jax.random.split(rng_key, 3)`. -/
def hmc_keys {K : Type} (P : HMCEnv K) (k : K) : K × K × K := P.split3 k

/-- `momentum = momentum_generator(key_momentum)`. -/
def hmc_momentum {K : Type} (P : HMCEnv K) (k : K) : List F :=
  P.momentum_generator (hmc_keys P k).1

/-- `integrator(key_integrator, position, momentum, log_prob_grad, log_prob)`,
returning `(position, momentum, log_prob, log_prob_grad)`. -/
def hmc_integrate {K : Type} (P : HMCEnv K) (k : K) (s : HMCState) :
    List F × List F × F × List F :=
  P.integrator (hmc_keys P k).2.1 s.position (hmc_momentum P k) s.log_prob_grad
    s.log_prob

/-- `flipped_momentum = -1.0 * momentum`. -/
def hmc_flipped_momentum {K : Type} (P : HMCEnv K) (k : K) (s : HMCState) :
    List F :=
  (hmc_integrate P k s).2.1.map fneg

/-- `new_energy = log_prob + kinetic_energy(flipped_momentum)` (with
`log_prob` the integrator's output). -/
def hmc_new_energy {K : Type} (P : HMCEnv K) (k : K) (s : HMCState) : F :=
  fadd (hmc_integrate P k s).2.2.1 (P.kinetic_energy (hmc_flipped_momentum P k s))

/-- `new_state = HMCState(position, log_prob, log_prob_grad, energy)`: note
the source stores the input state's `energy`, not `new_energy`. -/
def hmc_new_state {K : Type} (P : HMCEnv K) (k : K) (s : HMCState) : HMCState :=
  ⟨(hmc_integrate P k s).1, (hmc_integrate P k s).2.2.1,
    (hmc_integrate P k s).2.2.2, s.energy⟩

/-- `delta_energy = energy - new_energy` (before the NaN coercion). -/
def hmc_delta_raw {K : Type} (P : HMCEnv K) (k : K) (s : HMCState) : F :=
  fsub s.energy (hmc_new_energy P k s)

/-- `delta_energy = np.where(np.isnan(delta_energy), -np.inf, delta_energy)`. -/
def hmc_delta {K : Type} (P : HMCEnv K) (k : K) (s : HMCState) : F :=
  if (hmc_delta_raw P k s).isNaN then F.ninf else hmc_delta_raw P k s

/-- `is_divergent = np.abs(delta_energy) > divergence_threshold`. -/
def hmc_is_divergent {K : Type} (P : HMCEnv K) (k : K) (s : HMCState) : Bool :=
  flt P.divergence_threshold (fabs (hmc_delta P k s))

/-- `p_accept = np.clip(np.exp(delta_energy), a_max=1)`. -/
def hmc_p_accept {K : Type} (P : HMCEnv K) (k : K) (s : HMCState) : F :=
  clipMax1 (fexp P.qexp (hmc_delta P k s))

/-- `do_accept = jax.random.bernoulli(key_accept, p_accept)`. -/
def hmc_do_accept {K : Type} (P : HMCEnv K) (k : K) (s : HMCState) : Bool :=
  P.bern (hmc_keys P k).2.2 (hmc_p_accept P k s)

/-- One HMC transition: the `kernel` closure returned by `hmc_kernel`.
`np.where(do_accept, accept_state, reject_state)` selects between the two
fully-materialized branches. -/
def hmc_step {K : Type} (P : HMCEnv K) (k : K) (s : HMCState) :
    HMCState × HMCInfo :=
  if hmc_do_accept P k s then
    (hmc_new_state P k s,
      ⟨hmc_new_state P k s, hmc_p_accept P k s, true, hmc_is_divergent P k s⟩)
  else
    (s, ⟨hmc_new_state P k s, hmc_p_accept P k s, false, hmc_is_divergent P k s⟩)

/-- The `hmc_kernel` factory: closes over the collaborators and returns the
step function. -/
def hmc_kernel {K : Type} (split3 : K → K × K × K) (bern : K → F → Bool)
    (qexp : ℚ → ℚ)
    (integrator : K → List F → List F → List F → F → List F × List F × F × List F)
    (momentum_generator : K → List F) (kinetic_energy : List F → F)
    (divergence_threshold : F) : K → HMCState → HMCState × HMCInfo :=
  hmc_step ⟨split3, bern, qexp, integrator, momentum_generator, kinetic_energy,
    divergence_threshold⟩

/-! ## Random Walk Metropolis (source: `RWMState`, `rwm_kernel`) -/

/-- `RWMState` namedtuple. -/
structure RWMState where
  position : List F
  log_prob : F
deriving DecidableEq, Repr

/-- The collaborators of `rwm_kernel` together with the PRNG substrate
(`jax.random.split` into two keys, `jax.random.uniform`) and `np.log`. -/
structure RWMEnv (K : Type) where
  split2 : K → K × K
  uniform : K → F
  log : F → F
  logpdf : List F → F
  proposal : K → List F

/-- `key_move, key_uniform = jax.random.split(rng_key)`. -/
def rwm_keys {K : Type} (Q : RWMEnv K) (k : K) : K × K := Q.split2 k

/-- `move_proposal = proposal(key_move)`. -/
def rwm_move {K : Type} (Q : RWMEnv K) (k : K) : List F :=
  Q.proposal (rwm_keys Q k).1

/-- `proposal = position + move_proposal` (the candidate position). -/
def rwm_proposal {K : Type} (Q : RWMEnv K) (k : K) (t : RWMState) : List F :=
  vadd t.position (rwm_move Q k)

/-- `proposal_log_prob = logpdf(proposal)`. -/
def rwm_proposal_log_prob {K : Type} (Q : RWMEnv K) (k : K) (t : RWMState) : F :=
  Q.logpdf (rwm_proposal Q k t)

/-- `log_uniform = np.log(jax.random.uniform(key_uniform))`. -/
def rwm_log_uniform {K : Type} (Q : RWMEnv K) (k : K) : F :=
  Q.log (Q.uniform (rwm_keys Q k).2)

/-- `do_accept = log_uniform < proposal_log_prob - log_prob`. -/
def rwm_do_accept {K : Type} (Q : RWMEnv K) (k : K) (t : RWMState) : Bool :=
  flt (rwm_log_uniform Q k) (fsub (rwm_proposal_log_prob Q k t) t.log_prob)

/-- One RWM transition (`rwm_kernel`): the final `np.where(do_accept, ...)`
selections on `position` and `log_prob`. -/
def rwm_kernel {K : Type} (Q : RWMEnv K) (k : K) (t : RWMState) : RWMState :=
  ⟨if rwm_do_accept Q k t then rwm_proposal Q k t else t.position,
   if rwm_do_accept Q k t then rwm_proposal_log_prob Q k t else t.log_prob⟩

/-! ## Concrete instantiations of the collaborator interfaces

Used to evaluate the kernels on concrete inputs.  PRNG keys are `Unit`
(a single deterministic stream); `bern_u u` is `jax.random.bernoulli`
materialized with underlying uniform draw `u` (it returns `u < p`). -/

/-- An integrator that returns its inputs unchanged (in the source's output
order `(position, momentum, log_prob, log_prob_grad)`). -/
def identity_integrator :
    Unit → List F → List F → List F → F → List F × List F × F × List F :=
  fun _ p m g lp => (p, m, lp, g)

/-- Deterministic three-way key split on the trivial key type. -/
def split3_unit : Unit → Unit × Unit × Unit := fun _ => ((), (), ())

/-- Deterministic two-way key split on the trivial key type. -/
def split2_unit : Unit → Unit × Unit := fun _ => ((), ())

/-- `jax.random.bernoulli` with underlying uniform draw `u`: returns
`u < p`. -/
def bern_u (u : ℚ) : Unit → F → Bool := fun _ p => flt (F.fin u) p

/-- A finite-branch exponential model: strictly below 1 on negatives, 1
elsewhere (nonnegative everywhere, 1 at 0, as `exp` is). -/
def qexp_flat : ℚ → ℚ := fun q => if q < 0 then 1/2 else 1

/-- A finite-branch exponential model: 1 on nonpositives, above 1 on
positives (nonnegative everywhere). -/
def qexp_big : ℚ → ℚ := fun q => if q ≤ 0 then 1 else 2

/-- HMC environment with a flat target (zero gradient, constant
log-density), an identity integrator, momentum draw `[1]`, kinetic energy
`1/2` at that momentum, and the default divergence threshold. -/
def env_flat : HMCEnv Unit :=
  ⟨split3_unit, bern_u (3/4), qexp_flat, identity_integrator,
    fun _ => [F.fin 1], fun _ => F.fin (1/2), hmc_default_divergence_threshold⟩

/-- A well-formed chain state at position `[0]` for the flat target. -/
def s0 : HMCState := ⟨[F.fin 0], F.fin 0, [F.fin 0], F.fin 0⟩

/-- HMC environment whose kinetic energy returns `+inf`, so that
`delta_energy = (+inf) - (+inf) = NaN` from the state `s_nan`. -/
def env_nan : HMCEnv Unit :=
  ⟨split3_unit, bern_u (1/2), fun _ => 1, identity_integrator,
    fun _ => [F.fin 1], fun _ => F.pinf, hmc_default_divergence_threshold⟩

/-- A NaN-free state with cached energy `+inf`. -/
def s_nan : HMCState := ⟨[F.fin 0], F.fin 0, [F.fin 0], F.pinf⟩

/-- HMC environment producing `delta_energy = 2000` from `s_div`: divergent
(`|2000| > 1000`) yet accepted (`p_accept = 1`). -/
def env_div : HMCEnv Unit :=
  ⟨split3_unit, bern_u (1/2), qexp_big, identity_integrator,
    fun _ => [F.fin 1], fun _ => F.fin 0, hmc_default_divergence_threshold⟩

/-- A state with cached energy `2000` against new energy `0`. -/
def s_div : HMCState := ⟨[F.fin 0], F.fin 0, [F.fin 0], F.fin 2000⟩

/-- RWM environment whose target log-density is `-inf` everywhere
(the candidate is always out of support). -/
def env_rwm : RWMEnv Unit :=
  ⟨split2_unit, fun _ => F.fin (3/4), fun _ => F.fin (-(7/25)),
    fun _ => F.ninf, fun _ => [F.fin (1/10)]⟩

/-- An RWM state whose own log-density is `-inf` (the log-space acceptance
ratio is then `(-inf) - (-inf) = NaN`). -/
def t8 : RWMState := ⟨[F.fin 0], F.ninf⟩

/-- An RWM state with finite log-density. -/
def tR : RWMState := ⟨[F.fin 1], F.fin (-1)⟩

/-! ## Helper lemmas -/

theorem flt_ninf_right (x : F) : flt x F.ninf = false := by
  cases x <;> rfl

theorem flt_nan_right (x : F) : flt x F.nan = false := by
  cases x <;> rfl

theorem clipMax1_eq_spec_min_one (x : F) : clipMax1 x = spec_min_one x := by
  cases x <;> simp [clipMax1, spec_min_one, min_comm]

theorem hmc_delta_not_nan {K : Type} (P : HMCEnv K) (k : K) (s : HMCState) :
    (hmc_delta P k s).isNaN = false := by
  unfold hmc_delta
  cases h : (hmc_delta_raw P k s).isNaN
  · rw [if_neg (by simp [h])]; exact h
  · rw [if_pos (by simp [h])]; rfl

theorem hmc_step_is_divergent {K : Type} (P : HMCEnv K) (k : K) (s : HMCState) :
    (hmc_step P k s).2.is_divergent = hmc_is_divergent P k s := by
  unfold hmc_step
  cases h : hmc_do_accept P k s <;> simp [h]

theorem hmc_step_is_accepted {K : Type} (P : HMCEnv K) (k : K) (s : HMCState) :
    (hmc_step P k s).2.is_accepted = hmc_do_accept P k s := by
  unfold hmc_step
  cases h : hmc_do_accept P k s <;> simp [h]

/-! ## Claims -/

/-- Claim C1, evaluated at a failing input: with an identity integrator, a
flat target, momentum draw `[1]` and kinetic energy `1/2`, the proposed
state reported in `HMCInfo.proposed_state` carries the input state's cached
energy `0`, while the energy at its position,
`new_log_prob + kinetic_energy(flipped_momentum)`, is `1/2`.  The source's
`new_state = HMCState(position, log_prob, log_prob_grad, energy)` stores the
stale `energy`, so the claimed invariant fails. -/
theorem C1_proposed_state_energy_stale :
    (hmc_step env_flat () s0).2.proposed_state.energy = F.fin 0 ∧
    hmc_new_energy env_flat () s0 = F.fin (1/2) ∧
    fadd (hmc_step env_flat () s0).2.proposed_state.log_prob
        (env_flat.kinetic_energy (hmc_flipped_momentum env_flat () s0))
      = F.fin (1/2) ∧
    (hmc_step env_flat () s0).2.proposed_state.energy ≠
      fadd (hmc_step env_flat () s0).2.proposed_state.log_prob
        (env_flat.kinetic_energy (hmc_flipped_momentum env_flat () s0)) := by
  norm_num [hmc_step, hmc_do_accept, hmc_p_accept, hmc_delta, hmc_delta_raw,
    hmc_new_energy, hmc_new_state, hmc_is_divergent, hmc_integrate, hmc_momentum,
    hmc_flipped_momentum, hmc_keys, hmc_default_divergence_threshold, env_flat,
    s0, identity_integrator, split3_unit, bern_u, qexp_flat, fadd, fneg, fsub,
    fabs, fexp, clipMax1, flt, F.isNaN, min_def, abs_of_nonneg]

/-- Claim C2: when `delta_energy` is NaN it is coerced to `-inf` before any
further use, the acceptance probability becomes `0`, the step is rejected
(using the PRNG contract `bernoulli(key, 0) = false`), the input state is
returned, and no NaN enters the returned `log_prob`/`position` (the input
state's being NaN-free). -/
theorem C2_nan_delta_always_rejected {K : Type} (P : HMCEnv K) (k : K)
    (s : HMCState) (hb : ∀ key : K, P.bern key (F.fin 0) = false)
    (hnan : (hmc_delta_raw P k s).isNaN = true)
    (hlp : s.log_prob.isNaN = false)
    (hpos : ∀ x ∈ s.position, x.isNaN = false) :
    hmc_delta P k s = F.ninf ∧
    hmc_p_accept P k s = F.fin 0 ∧
    hmc_do_accept P k s = false ∧
    (hmc_step P k s).1 = s ∧
    (hmc_step P k s).2.is_accepted = false ∧
    (hmc_step P k s).1.log_prob.isNaN = false ∧
    (∀ x ∈ (hmc_step P k s).1.position, x.isNaN = false) := by
  have hd : hmc_delta P k s = F.ninf := by
    unfold hmc_delta; rw [if_pos (by simp [hnan])]
  have hp : hmc_p_accept P k s = F.fin 0 := by
    unfold hmc_p_accept
    rw [hd]
    show F.fin (min 0 1) = F.fin 0
    norm_num
  have ha : hmc_do_accept P k s = false := by
    unfold hmc_do_accept; rw [hp]; exact hb _
  have hst : hmc_step P k s
      = (s, ⟨hmc_new_state P k s, hmc_p_accept P k s, false,
          hmc_is_divergent P k s⟩) := by
    unfold hmc_step; rw [if_neg (by simp [ha])]
  refine ⟨hd, hp, ha, ?_, ?_, ?_, ?_⟩
  · rw [hst]
  · rw [hst]
  · rw [hst]; exact hlp
  · rw [hst]; exact hpos

/-- Witness for C2 at a concrete input: kinetic energy `+inf` against cached
energy `+inf` makes `delta_energy = NaN`. -/
theorem C2_nan_delta_always_rejected_witness :
    ((∀ key : Unit, env_nan.bern key (F.fin 0) = false) ∧
      (hmc_delta_raw env_nan () s_nan).isNaN = true ∧
      s_nan.log_prob.isNaN = false ∧
      (∀ x ∈ s_nan.position, x.isNaN = false)) ∧
    (hmc_delta env_nan () s_nan = F.ninf ∧
      hmc_p_accept env_nan () s_nan = F.fin 0 ∧
      hmc_do_accept env_nan () s_nan = false ∧
      (hmc_step env_nan () s_nan).1 = s_nan ∧
      (hmc_step env_nan () s_nan).2.is_accepted = false ∧
      (hmc_step env_nan () s_nan).1.log_prob.isNaN = false ∧
      (∀ x ∈ (hmc_step env_nan () s_nan).1.position, x.isNaN = false)) :=
  ⟨⟨fun _ => by norm_num [env_nan, bern_u, flt],
      by norm_num [hmc_delta_raw, hmc_new_energy, hmc_integrate, hmc_momentum,
        hmc_flipped_momentum, hmc_keys, env_nan, s_nan, identity_integrator,
        split3_unit, fadd, fneg, fsub, F.isNaN],
      by norm_num [s_nan, F.isNaN],
      by norm_num [s_nan, F.isNaN]⟩,
    C2_nan_delta_always_rejected env_nan () s_nan
      (fun _ => by norm_num [env_nan, bern_u, flt])
      (by norm_num [hmc_delta_raw, hmc_new_energy, hmc_integrate, hmc_momentum,
        hmc_flipped_momentum, hmc_keys, env_nan, s_nan, identity_integrator,
        split3_unit, fadd, fneg, fsub, F.isNaN])
      (by norm_num [s_nan, F.isNaN])
      (by norm_num [s_nan, F.isNaN])⟩

/-- Claim C3: a rejecting HMC step returns the input state itself, and a
rejecting RWM step returns the pre-step `position` and `log_prob` exactly. -/
theorem C3_reject_path_identity {K K2 : Type} (P : HMCEnv K) (k : K)
    (s : HMCState) (Q : RWMEnv K2) (j : K2) (t : RWMState)
    (h1 : hmc_do_accept P k s = false) (h2 : rwm_do_accept Q j t = false) :
    (hmc_step P k s).1 = s ∧
    (hmc_step P k s).2.is_accepted = false ∧
    (rwm_kernel Q j t).position = t.position ∧
    (rwm_kernel Q j t).log_prob = t.log_prob := by
  unfold hmc_step rwm_kernel
  rw [if_neg (by simp [h1])]
  refine ⟨rfl, rfl, ?_, ?_⟩ <;> simp [h2]

/-- Witness for C3: a rejecting HMC run (flat-target environment, uniform
draw `3/4` against `p_accept = 1/2`) and a rejecting RWM run (out-of-support
candidate). -/
theorem C3_reject_path_identity_witness :
    (hmc_do_accept env_flat () s0 = false ∧
      rwm_do_accept env_rwm () tR = false) ∧
    ((hmc_step env_flat () s0).1 = s0 ∧
      (hmc_step env_flat () s0).2.is_accepted = false ∧
      (rwm_kernel env_rwm () tR).position = tR.position ∧
      (rwm_kernel env_rwm () tR).log_prob = tR.log_prob) :=
  ⟨⟨by norm_num [hmc_do_accept, hmc_p_accept, hmc_delta, hmc_delta_raw,
        hmc_new_energy, hmc_integrate, hmc_momentum, hmc_flipped_momentum,
        hmc_keys, env_flat, s0, identity_integrator, split3_unit, bern_u,
        qexp_flat, fadd, fneg, fsub, fexp, clipMax1, flt, F.isNaN, min_def],
      by norm_num [rwm_do_accept, rwm_log_uniform, rwm_proposal_log_prob,
        rwm_proposal, rwm_move, rwm_keys, env_rwm, tR, split2_unit, vadd,
        fadd, fneg, fsub, flt]⟩,
    C3_reject_path_identity env_flat () s0 env_rwm () tR
      (by norm_num [hmc_do_accept, hmc_p_accept, hmc_delta, hmc_delta_raw,
        hmc_new_energy, hmc_integrate, hmc_momentum, hmc_flipped_momentum,
        hmc_keys, env_flat, s0, identity_integrator, split3_unit, bern_u,
        qexp_flat, fadd, fneg, fsub, fexp, clipMax1, flt, F.isNaN, min_def])
      (by norm_num [rwm_do_accept, rwm_log_uniform, rwm_proposal_log_prob,
        rwm_proposal, rwm_move, rwm_keys, env_rwm, tR, split2_unit, vadd,
        fadd, fneg, fsub, flt])⟩

/-- Claim C4, evaluated at a failing input: with a flat target (zero
gradient, constant log-density) and an identity integrator, the source does
not produce `delta_energy = 0`.  The step compares the stale cached energy
(`0`) against `log_prob + kinetic_energy(flipped fresh momentum)` (`1/2`),
so `delta_energy = -1/2`, `p_accept = exp(-1/2) < 1`, and with underlying
uniform draw `3/4` the step is rejected (it is, correctly, not flagged
divergent). -/
theorem C4_flat_identity_not_always_accepted :
    hmc_delta env_flat () s0 = F.fin (-(1/2)) ∧
    hmc_p_accept env_flat () s0 = F.fin (1/2) ∧
    hmc_do_accept env_flat () s0 = false ∧
    (hmc_step env_flat () s0).2.is_accepted = false ∧
    (hmc_step env_flat () s0).1 = s0 ∧
    hmc_is_divergent env_flat () s0 = false := by
  norm_num [hmc_step, hmc_do_accept, hmc_p_accept, hmc_delta, hmc_delta_raw,
    hmc_new_energy, hmc_new_state, hmc_is_divergent, hmc_integrate, hmc_momentum,
    hmc_flipped_momentum, hmc_keys, hmc_default_divergence_threshold, env_flat,
    s0, identity_integrator, split3_unit, bern_u, qexp_flat, fadd, fneg, fsub,
    fabs, fexp, clipMax1, flt, F.isNaN, min_def, abs_of_nonneg]

/-- Claim C5: `is_divergent` is exactly the test
`|delta_energy| > divergence_threshold` on the NaN-coerced delta, the
accept decision is exactly the Bernoulli draw on `p_accept` (the flag does
not enter it), and — concretely, at the default threshold `1000.0` — a step
with `delta_energy = 2000` is flagged divergent yet accepted. -/
theorem C5_divergence_flag_diagnostic {K : Type} (P : HMCEnv K) (k : K)
    (s : HMCState) :
    ((hmc_step P k s).2.is_divergent
        = flt P.divergence_threshold (fabs (hmc_delta P k s))) ∧
    ((hmc_step P k s).2.is_accepted
        = P.bern (hmc_keys P k).2.2 (hmc_p_accept P k s)) ∧
    (env_div.divergence_threshold = hmc_default_divergence_threshold ∧
      hmc_is_divergent env_div () s_div = true ∧
      (hmc_step env_div () s_div).2.is_divergent = true ∧
      (hmc_step env_div () s_div).2.is_accepted = true) := by
  refine ⟨?_, ?_, by
    norm_num [hmc_step, hmc_do_accept, hmc_p_accept, hmc_delta, hmc_delta_raw,
      hmc_new_energy, hmc_new_state, hmc_is_divergent, hmc_integrate,
      hmc_momentum, hmc_flipped_momentum, hmc_keys,
      hmc_default_divergence_threshold, env_div, s_div, identity_integrator,
      split3_unit, bern_u, qexp_big, fadd, fneg, fsub, fabs, fexp, clipMax1,
      flt, F.isNaN, min_def, abs_of_nonneg]⟩
  · rw [hmc_step_is_divergent]; rfl
  · rw [hmc_step_is_accepted]; rfl

/-- Claim C6: the acceptance probability is `np.clip(np.exp(delta), a_max=1)`,
which coincides with the spec's `min(1, exp(delta))`; and (under the
exponential's nonnegativity, which the real `exp` satisfies) it is a finite
value in `[0, 1]` — the clamp at `1` holding even when `exp(delta)` exceeds
`1`, and the `-inf` delta yielding `0`. -/
theorem C6_p_accept_clipped {K : Type} (P : HMCEnv K) (k : K) (s : HMCState)
    (hexp : ∀ q : ℚ, 0 ≤ P.qexp q) :
    hmc_p_accept P k s = spec_min_one (fexp P.qexp (hmc_delta P k s)) ∧
    ∃ r : ℚ, hmc_p_accept P k s = F.fin r ∧ 0 ≤ r ∧ r ≤ 1 := by
  constructor
  · unfold hmc_p_accept
    exact clipMax1_eq_spec_min_one _
  · have hnn := hmc_delta_not_nan P k s
    unfold hmc_p_accept
    cases hdel : hmc_delta P k s with
    | nan => rw [hdel] at hnn; exact absurd hnn (by simp [F.isNaN])
    | pinf => exact ⟨1, rfl, by norm_num, le_refl 1⟩
    | ninf => exact ⟨min 0 1, rfl, le_min le_rfl zero_le_one, min_le_right 0 1⟩
    | fin q =>
        exact ⟨min (P.qexp q) 1, rfl, le_min (hexp q) zero_le_one,
          min_le_right _ 1⟩

/-- Witness for C6 at a concrete input (`delta_energy = 2000`, an
exponential model exceeding `1` there, so the clamp is exercised). -/
theorem C6_p_accept_clipped_witness :
    (∀ q : ℚ, 0 ≤ env_div.qexp q) ∧
    (hmc_p_accept env_div () s_div
        = spec_min_one (fexp env_div.qexp (hmc_delta env_div () s_div)) ∧
      ∃ r : ℚ, hmc_p_accept env_div () s_div = F.fin r ∧ 0 ≤ r ∧ r ≤ 1) :=
  ⟨fun q => by show (0:ℚ) ≤ qexp_big q; unfold qexp_big; split <;> norm_num,
    C6_p_accept_clipped env_div () s_div
      (fun q => by show (0:ℚ) ≤ qexp_big q; unfold qexp_big; split <;> norm_num)⟩

/-- Claim C7: the RWM step forms the candidate `position + move` with the
move drawn from the proposal generator on the move sub-stream, accepts
exactly when `log(u) < candidate_log_prob - log_prob` with `u` drawn from
the uniform sub-stream, and returns the candidate position with its
log-density on acceptance, the current values otherwise. -/
theorem C7_rwm_step_algorithm {K : Type} (Q : RWMEnv K) (k : K) (t : RWMState) :
    rwm_move Q k = Q.proposal (Q.split2 k).1 ∧
    rwm_proposal Q k t = vadd t.position (rwm_move Q k) ∧
    rwm_proposal_log_prob Q k t = Q.logpdf (rwm_proposal Q k t) ∧
    rwm_do_accept Q k t
      = flt (Q.log (Q.uniform (Q.split2 k).2))
          (fsub (rwm_proposal_log_prob Q k t) t.log_prob) ∧
    rwm_kernel Q k t
      = if rwm_do_accept Q k t then
          RWMState.mk (rwm_proposal Q k t) (rwm_proposal_log_prob Q k t)
        else t := by
  refine ⟨rfl, rfl, rfl, rfl, ?_⟩
  unfold rwm_kernel
  cases h : rwm_do_accept Q k t <;> simp [h]

/-- Claim C8: an out-of-support candidate (`candidate_log_prob = -inf`)
always rejects without arithmetic fault — including when the current
`log_prob` is itself `-inf`, where the log-space difference is NaN — and
the input position and log-probability are returned. -/
theorem C8_out_of_support_always_rejects {K : Type} (Q : RWMEnv K) (k : K)
    (t : RWMState) (h : rwm_proposal_log_prob Q k t = F.ninf) :
    rwm_do_accept Q k t = false ∧ rwm_kernel Q k t = t := by
  have hda : rwm_do_accept Q k t = false := by
    unfold rwm_do_accept
    rw [h]
    cases ht : t.log_prob <;>
      simp [fsub, fneg, fadd, flt_ninf_right, flt_nan_right]
  refine ⟨hda, ?_⟩
  unfold rwm_kernel
  rw [if_neg (by simp [hda]), if_neg (by simp [hda])]

/-- Witness for C8 at a concrete input whose own `log_prob` is `-inf` (so
the acceptance ratio is the NaN case). -/
theorem C8_out_of_support_always_rejects_witness :
    rwm_proposal_log_prob env_rwm () t8 = F.ninf ∧
    (rwm_do_accept env_rwm () t8 = false ∧ rwm_kernel env_rwm () t8 = t8) :=
  ⟨rfl, C8_out_of_support_always_rejects env_rwm () t8 rfl⟩

/-- Claim C9: both kernels are pure functions of the input stream and state
(equal inputs give equal outputs), and the stream is split into exactly
three sub-streams for HMC and two for RWM by the pure splitting function. -/
theorem C9_kernels_deterministic {K K2 : Type} (P : HMCEnv K) (k1 k2 : K)
    (s1 s2 : HMCState) (Q : RWMEnv K2) (j1 j2 : K2) (t1 t2 : RWMState)
    (hk : k1 = k2) (hs : s1 = s2) (hj : j1 = j2) (ht : t1 = t2) :
    hmc_step P k1 s1 = hmc_step P k2 s2 ∧
    rwm_kernel Q j1 t1 = rwm_kernel Q j2 t2 ∧
    hmc_keys P k1 = P.split3 k1 ∧
    rwm_keys Q j1 = Q.split2 j1 := by
  subst hk; subst hs; subst hj; subst ht
  exact ⟨rfl, rfl, rfl, rfl⟩

/-- Witness for C9 at concrete inputs. -/
theorem C9_kernels_deterministic_witness :
    hmc_step env_flat () s0 = hmc_step env_flat () s0 ∧
    rwm_kernel env_rwm () tR = rwm_kernel env_rwm () tR ∧
    hmc_keys env_flat () = env_flat.split3 () ∧
    rwm_keys env_rwm () = env_rwm.split2 () :=
  C9_kernels_deterministic env_flat () () s0 s0 env_rwm () () tR tR
    rfl rfl rfl rfl

/-- Claim C10: a NaN `delta_energy` is coerced to `-inf` before the
divergence test, so `|delta_energy| = +inf` exceeds any finite divergence
threshold and the returned `HMCInfo` has `is_divergent = true`. -/
theorem C10_nan_delta_flagged_divergent {K : Type} (P : HMCEnv K) (k : K)
    (s : HMCState) (q : ℚ) (hq : P.divergence_threshold = F.fin q)
    (hnan : (hmc_delta_raw P k s).isNaN = true) :
    hmc_delta P k s = F.ninf ∧
    fabs (hmc_delta P k s) = F.pinf ∧
    hmc_is_divergent P k s = true ∧
    (hmc_step P k s).2.is_divergent = true := by
  have hd : hmc_delta P k s = F.ninf := by
    unfold hmc_delta
    rw [if_pos (by simp [hnan])]
  have hdiv : hmc_is_divergent P k s = true := by
    unfold hmc_is_divergent
    rw [hd, hq]
    rfl
  exact ⟨hd, by rw [hd]; rfl, hdiv, by rw [hmc_step_is_divergent]; exact hdiv⟩

/-- Witness for C10 at a concrete input with `delta_energy = NaN` and the
default (finite) divergence threshold `1000.0`. -/
theorem C10_nan_delta_flagged_divergent_witness :
    (env_nan.divergence_threshold = F.fin 1000 ∧
      (hmc_delta_raw env_nan () s_nan).isNaN = true) ∧
    (hmc_delta env_nan () s_nan = F.ninf ∧
      fabs (hmc_delta env_nan () s_nan) = F.pinf ∧
      hmc_is_divergent env_nan () s_nan = true ∧
      (hmc_step env_nan () s_nan).2.is_divergent = true) :=
  ⟨⟨rfl,
      by norm_num [hmc_delta_raw, hmc_new_energy, hmc_integrate, hmc_momentum,
        hmc_flipped_momentum, hmc_keys, env_nan, s_nan, identity_integrator,
        split3_unit, fadd, fneg, fsub, F.isNaN]⟩,
    C10_nan_delta_flagged_divergent env_nan () s_nan 1000 rfl
      (by norm_num [hmc_delta_raw, hmc_new_energy, hmc_integrate, hmc_momentum,
        hmc_flipped_momentum, hmc_keys, env_nan, s_nan, identity_integrator,
        split3_unit, fadd, fneg, fsub, F.isNaN])⟩

end MCXKernels
